import Mathlib

/-
Shallow embedding of the digital-filter library `filter.c` / `filter.h`
(RC, CR, FIR and IIR engines plus the biquad coefficient synthesis and
gain/normalisation helpers).

Modelling conventions:
  * `float32_t` values are modelled as real numbers `ℝ`; the IEEE NAN
    sentinel used by the IIR engine and the gain analyzers is modelled by
    `Option ℝ` with `none` standing for NAN (`ofloat` below).
  * A possibly-NULL pointer argument is an `Option` argument (`none` = NULL).
  * An out-parameter `float32_t * p_out` is passed in as the value currently
    stored at the pointed-to location and returned as the value stored there
    after the call; this keeps the C code's read-modify-write accesses to
    `*p_out` (`*p_out += ...`) visible.
  * A C function that mutates an instance through a pointer becomes a pure
    function returning the status together with the new instance state.
  * The ring buffer (delay line) comes from a separate repository and is not
    part of the sources; it is modelled from the spec's collaborator
    contract, see `rb_push` / `rb_get`.
-/

noncomputable section

namespace Filter

/-- Status codes `eFILTER_OK` / `eFILTER_ERROR` of `filter.h`. -/
inductive filter_status_t where
  | ok
  | error
deriving DecidableEq

/-- Constant `FILTER_TWOPI` of `filter.c`: two times pi. -/
def FILTER_TWOPI : ℝ := 2 * Real.pi

/-! ### RC filter (`struct filter_rc_s`) -/

/-- RC filter instance data, mirroring `struct filter_rc_s`.  The C array
`p_y` of length `order` is a list; the pointer itself is never NULL once the
instance exists. -/
structure filter_rc_t where
  p_y : List ℝ
  alpha : ℝ
  fc : ℝ
  fs : ℝ
  order : ℕ
  is_init : Bool

/-- Function `filter_rc_calculate_alpha`.  `alpha0` is the value stored at
`*p_alpha` before the call (the function writes it only on success); the
`p_alpha != NULL` conjunct is dropped because every caller in the file passes
the address of a local or field.  Nyquist violation sets `eFILTER_ERROR`. -/
def filter_rc_calculate_alpha (fc fs alpha0 : ℝ) : filter_status_t × ℝ :=
  if fc < fs / 2 then
    (.ok, 1 / (1 + fs / (FILTER_TWOPI * fc)))
  else
    (.error, alpha0)

/-- Function `filter_rc_init`.  On any failure the out instance pointer is
modelled as `none` (the C code leaves an unusable allocation behind, which no
claim observes).  Allocation is assumed to succeed. -/
def filter_rc_init (fc fs : ℝ) (order : ℕ) (init_value : ℝ) :
    filter_status_t × Option filter_rc_t :=
  if 0 < order then
    match filter_rc_calculate_alpha fc fs 0 with
    | (.ok, alpha) =>
        (.ok, some ⟨List.replicate order init_value, alpha, fc, fs, order, true⟩)
    | (.error, _) => (.error, none)
  else
    (.error, none)

/-- Function `filter_rc_is_init` (the `p_is_init` out pointer is assumed
valid; a NULL one only changes the status, which the claims do not use). -/
def filter_rc_is_init : Option filter_rc_t → filter_status_t × Option Bool
  | some inst => (.ok, some inst.is_init)
  | none => (.error, none)

/-- Cascade loop of `filter_rc_hndl`: stage 0 uses the input, stage n the
already-updated output of stage n-1 (`p_y[n-1]` is read after being written
in the previous iteration). -/
def rc_cascade (alpha : ℝ) : ℝ → List ℝ → List ℝ
  | _, [] => []
  | prev, y :: ys =>
      let y' := y + alpha * (prev - y)
      y' :: rc_cascade alpha y' ys

/-- Function `filter_rc_hndl`.  Arguments: instance pointer, input, content
of `*p_out` (or `none` for a NULL `p_out`); result: status, new instance
state, content of `*p_out` after the call.  The uninitialised case falls
through with status `eFILTER_OK` (the inner `if` has no `else`). -/
def filter_rc_hndl :
    Option filter_rc_t → ℝ → Option ℝ →
    filter_status_t × Option filter_rc_t × Option ℝ
  | some inst, input, some o =>
      if inst.is_init then
        let ys := rc_cascade inst.alpha input inst.p_y
        (.ok, some { inst with p_y := ys }, some (ys.getD (inst.order - 1) 0))
      else
        (.ok, some inst, some o)
  | i, _, o => (.error, i, o)

/-- Function `filter_rc_fc_set`: recomputes alpha with the stored sampling
frequency (local `alpha` initialised to `0.0f`) and stores both `alpha` and
`fc` only when the computation reported `eFILTER_OK`. -/
def filter_rc_fc_set : Option filter_rc_t → ℝ → filter_status_t × Option filter_rc_t
  | some inst, fc =>
      if inst.is_init then
        match filter_rc_calculate_alpha fc inst.fs 0 with
        | (.ok, alpha) => (.ok, some { inst with alpha := alpha, fc := fc })
        | (.error, _) => (.error, some inst)
      else
        (.error, some inst)
  | none, _ => (.error, none)

/-! ### CR filter (`struct filter_cr_s`) -/

/-- CR filter instance data, mirroring `struct filter_cr_s`. -/
structure filter_cr_t where
  p_y : List ℝ
  p_x : List ℝ
  alpha : ℝ
  fc : ℝ
  fs : ℝ
  order : ℕ
  is_init : Bool

/-- Function `filter_cr_calculate_alpha`.  Note that, unlike its RC
counterpart, the C function has no `else` branch: when the guard fails it
returns `eFILTER_OK` without writing `*p_alpha` (which keeps `alpha0`). -/
def filter_cr_calculate_alpha (fc fs alpha0 : ℝ) : filter_status_t × ℝ :=
  if fc < fs / 2 ∧ 0 < fs ∧ 0 < fc then
    (.ok, (1 / (FILTER_TWOPI * fc)) / (1 / fs + 1 / (FILTER_TWOPI * fc)))
  else
    (.ok, alpha0)

/-- Function `filter_cr_init`.  The constructor never writes the `fs` field
and writes `alpha` only inside `filter_cr_calculate_alpha`'s guard, so the
indeterminate contents of the freshly allocated struct are passed in as
`mem_alpha` and `mem_fs`.  Allocation is assumed to succeed. -/
def filter_cr_init (fc fs : ℝ) (order : ℕ) (mem_alpha mem_fs : ℝ) :
    filter_status_t × Option filter_cr_t :=
  if 0 < order then
    match filter_cr_calculate_alpha fc fs mem_alpha with
    | (.ok, alpha) =>
        (.ok, some ⟨List.replicate order 0, List.replicate order 0, alpha, fc, mem_fs,
                    order, true⟩)
    | (.error, _) => (.error, none)
  else
    (.error, none)

/-- Function `filter_cr_is_init`. -/
def filter_cr_is_init : Option filter_cr_t → filter_status_t × Option Bool
  | some inst => (.ok, some inst.is_init)
  | none => (.error, none)

/-- Cascade loop of `filter_cr_hndl` over the output and input history
arrays: stage 0 sees the input, stage n sees the already-updated output of
stage n-1, and each stage's `p_x` slot is overwritten with the value it just
consumed. -/
def cr_cascade (alpha : ℝ) : ℝ → List ℝ → List ℝ → List ℝ × List ℝ
  | prev, y :: ys, x :: xs =>
      let y' := alpha * y + alpha * (prev - x)
      let rest := cr_cascade alpha y' ys xs
      (y' :: rest.1, prev :: rest.2)
  | _, ys, xs => (ys, xs)

/-- Function `filter_cr_hndl`.  The C function sets no error status at all
(there is no `else` on the NULL check and no `else` on the `is_init` check),
so every path returns `eFILTER_OK`. -/
def filter_cr_hndl :
    Option filter_cr_t → ℝ → Option ℝ →
    filter_status_t × Option filter_cr_t × Option ℝ
  | some inst, input, some o =>
      if inst.is_init then
        let p := cr_cascade inst.alpha input inst.p_y inst.p_x
        (.ok, some { inst with p_y := p.1, p_x := p.2 },
         some (p.1.getD (inst.order - 1) 0))
      else
        (.ok, some inst, some o)
  | i, _, o => (.ok, i, o)

/-- Function `filter_cr_fc_set`: same shape as the RC variant, but it relies
on `filter_cr_calculate_alpha`, which always answers `eFILTER_OK`; the local
`alpha` it passes down is initialised to `0.0f`. -/
def filter_cr_fc_set : Option filter_cr_t → ℝ → filter_status_t × Option filter_cr_t
  | some inst, fc =>
      if inst.is_init then
        match filter_cr_calculate_alpha fc inst.fs 0 with
        | (.ok, alpha) => (.ok, some { inst with alpha := alpha, fc := fc })
        | (.error, _) => (.error, some inst)
      else
        (.error, some inst)
  | none, _ => (.error, none)

/-! ### Delay line (ring buffer collaborator) -/

/-- Modelled from the spec: the DelayLine collaborator's `push` — the ring
buffer implementation lives in a separate repository and is consumed here
through its contract: push overwrites the oldest slot once the buffer is
full.  A buffer of capacity n is a list of length n with the most recently
pushed sample at the head (the constructors fill it completely before any
handle call reads it). -/
def rb_push {α : Type} (buf : List α) (v : α) : List α :=
  v :: buf.dropLast

/-- Modelled from the spec: the DelayLine collaborator's
`get_at_backward_offset` — offset 0 is the most recently pushed item.  The C
code's negative index `-(i+1)` is this lookup at distance i from the newest
sample.  `d` is the content of the caller's buffer variable, returned when
the offset is out of range. -/
def rb_get {α : Type} (buf : List α) (i : ℕ) (d : α) : α :=
  buf.getD i d

/-! ### FIR filter (`struct filter_fir_s`) -/

/-- FIR filter instance data, mirroring `struct filter_fir_s`: the sample
ring buffer `p_x` (capacity `order`, newest sample first) and the tap array
`p_a` (length `order`). -/
structure filter_fir_t where
  p_x : List ℝ
  p_a : List ℝ
  order : ℕ
  is_init : Bool

/-- Convolution loop of `filter_fir_hndl`: iteration i adds
`p_a[i] * rb_get p_x i` for i below `order`; with `p_a` of length `order`
and the buffer of capacity `order` this is the paired fold below. -/
def fir_conv : List ℝ → List ℝ → ℝ
  | a :: as, x :: xs => a * x + fir_conv as xs
  | _, _ => 0

/-- Function `filter_fir_is_init`. -/
def filter_fir_is_init : Option filter_fir_t → filter_status_t × Option Bool
  | some inst => (.ok, some inst.is_init)
  | none => (.error, none)

/-- Function `filter_fir_hndl`.  The new sample is pushed first; the
convolution is then accumulated into the caller's `*p_out` with `+=`, so the
result adds to whatever the out location already held.  No path sets an
error status (the NULL check has no `else`). -/
def filter_fir_hndl :
    Option filter_fir_t → ℝ → Option ℝ →
    filter_status_t × Option filter_fir_t × Option ℝ
  | some inst, input, some o =>
      if inst.is_init then
        let xs := rb_push inst.p_x input
        (.ok, some { inst with p_x := xs }, some (o + fir_conv inst.p_a xs))
      else
        (.ok, some inst, some o)
  | i, _, o => (.ok, i, o)

/-! ### IIR filter (`struct filter_iir_s`) -/

/-- A `float32_t` value that may be the NAN sentinel: `none` models NAN. -/
def ofloat : Type := Option ℝ

/-- IEEE addition restricted to what the engine needs: NAN absorbs. -/
def oadd : ofloat → ofloat → ofloat
  | some a, some b => some (a + b)
  | _, _ => none

/-- IEEE subtraction: NAN absorbs. -/
def osub : ofloat → ofloat → ofloat
  | some a, some b => some (a - b)
  | _, _ => none

/-- IEEE multiplication restricted to what the engine needs (a real
coefficient times a possibly-NAN sample): NAN absorbs. -/
def omul : ℝ → ofloat → ofloat
  | a, some b => some (a * b)
  | _, none => none

/-- Division of a possibly-NAN accumulator by a coefficient; the engine only
divides by a coefficient it has checked to be non-zero. -/
def odiv : ofloat → ℝ → ofloat
  | some a, b => some (a / b)
  | none, _ => none

/-- IIR coefficient set, mirroring `filter_iir_coeff_t`; `num_of_pole` and
`num_of_zero` are the lengths of the two lists. -/
structure filter_iir_coeff_t where
  p_pole : List ℝ
  p_zero : List ℝ

/-- IIR filter instance data, mirroring `struct filter_iir_s`: output ring
buffer `p_y` (capacity `num_of_pole`, may hold the NAN sentinel), input ring
buffer `p_x` (capacity `num_of_zero`). -/
structure filter_iir_t where
  p_y : List ofloat
  p_x : List ℝ
  coeff : filter_iir_coeff_t
  is_init : Bool

/-- Zero-coefficient loop of `filter_iir_hndl`: for i below `num_of_zero`,
`*p_out += p_zero[i] * rb_get p_x i`, threading the possibly-NAN
accumulator. -/
def iir_zero_acc : ofloat → List ℝ → List ℝ → ofloat
  | acc, z :: zs, x :: xs => iir_zero_acc (oadd acc (some (z * x))) zs xs
  | acc, _, _ => acc

/-- Pole-coefficient loop of `filter_iir_hndl`: for i from 1 below
`num_of_pole`, `*p_out -= p_pole[i] * rb_get p_y (i-1)`; called with the
pole list minus its head, paired with output history from the newest. -/
def iir_pole_acc : ofloat → List ℝ → List ofloat → ofloat
  | acc, p :: ps, y :: ys => iir_pole_acc (osub acc (omul p y)) ps ys
  | acc, _, _ => acc

/-- Function `filter_iir_is_init`. -/
def filter_iir_is_init : Option filter_iir_t → filter_status_t × Option Bool
  | some inst => (.ok, some inst.is_init)
  | none => (.error, none)

/-- Function `filter_iir_hndl`.  Only the instance pointer is checked for
NULL (with no `else`, so the status is always `eFILTER_OK`); `*p_out` is the
accumulator, starting from whatever the caller's location held.  When
`p_pole[0] == 0.0f` the output is overwritten with NAN; either way the final
output value is pushed into the output ring buffer. -/
def filter_iir_hndl :
    Option filter_iir_t → ℝ → ofloat →
    filter_status_t × Option filter_iir_t × ofloat
  | some inst, input, o =>
      if inst.is_init then
        let xs := rb_push inst.p_x input
        let acc := iir_pole_acc (iir_zero_acc o inst.coeff.p_zero xs)
                     (inst.coeff.p_pole.drop 1) inst.p_y
        let y := if inst.coeff.p_pole.getD 0 0 = 0 then none
                 else odiv acc (inst.coeff.p_pole.getD 0 0)
        (.ok, some { inst with p_x := xs, p_y := rb_push inst.p_y y }, y)
      else
        (.ok, some inst, o)
  | i, _, o => (.ok, i, o)

/-! ### Biquad coefficient synthesis -/

/-- Function `filter_iir_coeff_calc_2nd_lpf` for non-NULL output pointers:
`none` models the `eFILTER_ERROR` path on which neither output array is
written; on success the result is (pole array, zero array). -/
def filter_iir_coeff_calc_2nd_lpf (fc zeta fs : ℝ) : Option (List ℝ × List ℝ) :=
  if fc < fs / 2 then
    let omega := 2 * (Real.pi * (fc / fs))
    let alpha := Real.sin omega * zeta
    let c := Real.cos omega
    some ([1 + alpha, -2 * c, 1 - alpha],
          [(1 - c) / 2, 1 - c, (1 - c) / 2])
  else
    none

/-- Function `filter_iir_coeff_calc_2nd_hpf` for non-NULL output pointers;
result on success is (pole array, zero array). -/
def filter_iir_coeff_calc_2nd_hpf (fc zeta fs : ℝ) : Option (List ℝ × List ℝ) :=
  if fc < fs / 2 then
    let omega := 2 * (Real.pi * (fc / fs))
    let alpha := Real.sin omega * zeta
    let c := Real.cos omega
    some ([1 + alpha, -2 * c, 1 - alpha],
          [(1 + c) / 2, -(1 + c), (1 + c) / 2])
  else
    none

/-- Function `filter_iir_coeff_calc_2nd_bpf` (notch / band stop) for
non-NULL output pointers: the outer guard also requires `0 < r < 1`; result
on success is (pole array, zero array). -/
def filter_iir_coeff_calc_2nd_bpf (fc r fs : ℝ) : Option (List ℝ × List ℝ) :=
  if 0 < r ∧ r < 1 then
    if fc < fs / 2 then
      let omega := 2 * (Real.pi * (fc / fs))
      let c := Real.cos omega
      some ([1, -2 * (r * c), r * r],
            [1, -2 * c, 1])
    else
      none
  else
    none

/-! ### Gain analyzer and unity-gain normaliser -/

/-- Leading pole coefficient `p_pole[0]` as the gain analyzer reads it
(0 for an empty list, which construction rules out). -/
def pole0 (c : filter_iir_coeff_t) : ℝ :=
  c.p_pole.getD 0 0

/-- The `pole_sum` accumulated by the gain analyzer's first loop:
`Σ_{i ≥ 1} p_pole[i]`. -/
def pole_rest_sum (c : filter_iir_coeff_t) : ℝ :=
  (c.p_pole.drop 1).sum

/-- Function `filter_iir_calc_lpf_gain` for a non-NULL coefficient set:
`dc_gain` starts as NAN (`none`) and is overwritten only when both guards
pass; `pole_sum` is rescaled to `pole_sum / p_pole[0] + 1` before the
second guard. -/
def filter_iir_calc_lpf_gain (c : filter_iir_coeff_t) : ofloat :=
  if pole0 c = 0 then none
  else if pole_rest_sum c / pole0 c + 1 = 0 then none
  else some (c.p_zero.sum / (pole_rest_sum c / pole0 c + 1) / pole0 c)

/-- Function `filter_iir_coeff_to_unity_gain_lpf` for a non-NULL coefficient
set: the comparison `dc_gain > 0.0f` is false when the gain is NAN, so the
NAN and non-positive cases are both the silent no-op with status
`eFILTER_OK`. -/
def filter_iir_coeff_to_unity_gain_lpf (c : filter_iir_coeff_t) :
    filter_status_t × filter_iir_coeff_t :=
  match filter_iir_calc_lpf_gain c with
  | some g =>
      if 0 < g then
        (.ok, { c with p_zero := c.p_zero.map (fun z => z / g) })
      else
        (.ok, c)
  | none => (.ok, c)

/-! ### Concrete instances used to evaluate the operations -/

/-- An RC instance whose construction did not complete: `is_init` is false. -/
def rcUninit : filter_rc_t := ⟨[0], 1 / 2, 10, 100, 1, false⟩

/-- An initialised order-1 RC instance (alpha 1/2, fc 10, fs 100). -/
def rcInst : filter_rc_t := ⟨[0], 1 / 2, 10, 100, 1, true⟩

/-- An initialised order-1 CR instance (alpha 1/2, fc 10, fs 100). -/
def crInst : filter_cr_t := ⟨[0], [0], 1 / 2, 10, 100, 1, true⟩

/-- An initialised order-1 FIR instance with the single tap 1. -/
def firInst : filter_fir_t := ⟨[0], [1], 1, true⟩

/-- An initialised IIR instance with `p_pole = [0]` (zero leading pole),
`p_zero = [1]`, and zero-filled delay lines. -/
def iirZeroPole : filter_iir_t := ⟨[some 0], [0], ⟨[0], [1]⟩, true⟩

/-- Coefficient set `pole = [2, 1]`, `zero = [3]`, whose DC gain is 1. -/
def gainCoeff : filter_iir_coeff_t := ⟨[2, 1], [3]⟩

/-- Coefficient set `pole = [1]`, `zero = [2]`, whose DC gain is 2. -/
def unityCoeff : filter_iir_coeff_t := ⟨[1], [2]⟩

/-! ### Claims -/

/-- Claim C1 (code bug evidence): the per-sample handles do not reject bad
calls the way the spec requires.  An uninitialised RC instance is handled
with status `eFILTER_OK` (the output location is left untouched), the CR,
FIR and IIR handles even answer `eFILTER_OK` for a NULL instance, and the
init-status query on the uninitialised instance also reports `eFILTER_OK` —
so the handle is a second operation that "succeeds" on an uninitialised
instance. -/
theorem C1_handles_reject_nothing :
    filter_rc_hndl (some rcUninit) 1 (some 7) = (.ok, some rcUninit, some 7) ∧
    filter_cr_hndl none 1 (some 7) = (.ok, none, some 7) ∧
    filter_fir_hndl none 1 (some 7) = (.ok, none, some 7) ∧
    filter_iir_hndl none 1 (some 5) = (.ok, none, some 5) ∧
    filter_rc_is_init (some rcUninit) = (.ok, some false) :=
  ⟨rfl, rfl, rfl, rfl, rfl⟩

/-- Claim C2 (code bug evidence): `filter_cr_fc_set` on an initialised CR
instance (fs = 100) with the Nyquist-violating cutoff 60 returns
`eFILTER_OK` and overwrites alpha with 0 (the caller's local default, since
`filter_cr_calculate_alpha` never reports failure) and fc with 60, while the
RC counterpart rejects the same cutoff and leaves its instance unchanged. -/
theorem C2_cr_fc_set_accepts_nyquist_violation :
    filter_cr_fc_set (some crInst) 60 =
      (.ok, some { crInst with alpha := 0, fc := 60 }) ∧
    filter_rc_fc_set (some rcInst) 60 = (.error, some rcInst) := by
  constructor
  · norm_num [filter_cr_fc_set, crInst, filter_cr_calculate_alpha]
  · norm_num [filter_rc_fc_set, rcInst, filter_rc_calculate_alpha]

/-- Claim C3 (code bug evidence): `filter_fir_hndl` accumulates the
convolution into the caller's `*p_out` with `+=` instead of assigning it.
With taps `[1]`, a zero-filled history and input 2, a call whose out
location holds 1 produces 3, not the input 2; only a caller that zeroes the
out location first gets the specified `y[n] = Σ a[i]·x[n-i]`. -/
theorem C3_fir_hndl_accumulates_into_out :
    filter_fir_hndl (some firInst) 2 (some 1) =
      (.ok, some { firInst with p_x := [2] }, some 3) ∧
    filter_fir_hndl (some firInst) 2 (some 0) =
      (.ok, some { firInst with p_x := [2] }, some 2) := by
  constructor <;>
    norm_num [filter_fir_hndl, firInst, rb_push, fir_conv]

/-- Claim C4 (code bug evidence): at the Nyquist boundary `fc = fs / 2`
(here 50 = 100/2) the CR constructor succeeds — `filter_cr_calculate_alpha`
never reports failure, so `filter_cr_init` returns `eFILTER_OK` with
`is_init = true` and an alpha field left at its indeterminate allocation
content (passed in as 3) — while the RC constructor and all three biquad
syntheses do reject the same boundary. -/
theorem C4_cr_init_accepts_nyquist_boundary :
    filter_cr_init 50 100 1 3 7 = (.ok, some ⟨[0], [0], 3, 50, 7, 1, true⟩) ∧
    filter_rc_init 50 100 1 0 = (.error, none) ∧
    filter_iir_coeff_calc_2nd_lpf 50 (7 / 10) 100 = none ∧
    filter_iir_coeff_calc_2nd_hpf 50 (7 / 10) 100 = none ∧
    filter_iir_coeff_calc_2nd_bpf 50 (1 / 2) 100 = none := by
  refine ⟨?_, ?_, ?_, ?_, ?_⟩ <;>
    norm_num [filter_cr_init, filter_cr_calculate_alpha, filter_rc_init,
      filter_rc_calculate_alpha, filter_iir_coeff_calc_2nd_lpf,
      filter_iir_coeff_calc_2nd_hpf, filter_iir_coeff_calc_2nd_bpf,
      List.replicate]

/-- Claim C5: on an initialised IIR instance whose leading pole coefficient
is zero, every handle call returns the NAN sentinel as its output, whatever
the input value and whatever the out location held, and pushes that sentinel
into the output delay line, where the next backward-offset-0 lookup sees
it. -/
theorem C5_iir_zero_pole_propagates_nan (inst : filter_iir_t) (x : ℝ)
    (o : ofloat) (hinit : inst.is_init = true)
    (hp : inst.coeff.p_pole.getD 0 0 = 0) :
    filter_iir_hndl (some inst) x o =
      (.ok, some { inst with p_x := rb_push inst.p_x x,
                             p_y := rb_push inst.p_y none }, none) ∧
    rb_get (rb_push inst.p_y none) 0 (some 0) = none := by
  refine ⟨?_, rfl⟩
  have hp2 : inst.coeff.p_pole[0]?.getD 0 = 0 := by simpa using hp
  simp [filter_iir_hndl, hinit, hp2]

/-- Witness for C5 at the concrete instance `iirZeroPole`, input 3, out
location holding 5. -/
theorem C5_iir_zero_pole_witness :
    filter_iir_hndl (some iirZeroPole) 3 (some 5) =
      (.ok, some { iirZeroPole with p_x := rb_push iirZeroPole.p_x 3,
                                    p_y := rb_push iirZeroPole.p_y none }, none) ∧
    rb_get (rb_push iirZeroPole.p_y none) 0 (some 0) = none :=
  C5_iir_zero_pole_propagates_nan iirZeroPole 3 (some 5) rfl rfl

/-- Claim C6: the low-pass biquad synthesis succeeds for every cutoff below
half the sample rate and produces exactly
`zero = [(1-c)/2, 1-c, (1-c)/2]`, `pole = [1+a, -2c, 1-a]` with
`w = 2*pi*fc/fs`, `a = sin w * zeta`, `c = cos w`; at or above the Nyquist
boundary it fails and writes nothing. -/
theorem C6_biquad_lpf_formulas (fc zeta fs : ℝ) :
    (fc < fs / 2 →
      filter_iir_coeff_calc_2nd_lpf fc zeta fs =
        some ([1 + Real.sin (2 * Real.pi * fc / fs) * zeta,
               -2 * Real.cos (2 * Real.pi * fc / fs),
               1 - Real.sin (2 * Real.pi * fc / fs) * zeta],
              [(1 - Real.cos (2 * Real.pi * fc / fs)) / 2,
               1 - Real.cos (2 * Real.pi * fc / fs),
               (1 - Real.cos (2 * Real.pi * fc / fs)) / 2])) ∧
    (fs / 2 ≤ fc → filter_iir_coeff_calc_2nd_lpf fc zeta fs = none) := by
  have hw : 2 * (Real.pi * (fc / fs)) = 2 * Real.pi * fc / fs := by ring
  constructor
  · intro h
    simp [filter_iir_coeff_calc_2nd_lpf, h, hw]
  · intro h
    simp [filter_iir_coeff_calc_2nd_lpf, not_lt.mpr h]

/-- Witness for C6 at fc = 1, zeta = 7/10, fs = 8 (success side) and fc = 4,
fs = 8 (failure side). -/
theorem C6_biquad_lpf_witness :
    filter_iir_coeff_calc_2nd_lpf 1 (7 / 10) 8 =
      some ([1 + Real.sin (2 * Real.pi * 1 / 8) * (7 / 10),
             -2 * Real.cos (2 * Real.pi * 1 / 8),
             1 - Real.sin (2 * Real.pi * 1 / 8) * (7 / 10)],
            [(1 - Real.cos (2 * Real.pi * 1 / 8)) / 2,
             1 - Real.cos (2 * Real.pi * 1 / 8),
             (1 - Real.cos (2 * Real.pi * 1 / 8)) / 2]) ∧
    filter_iir_coeff_calc_2nd_lpf 4 (7 / 10) 8 = none :=
  ⟨(C6_biquad_lpf_formulas 1 (7 / 10) 8).1 (by norm_num),
   (C6_biquad_lpf_formulas 4 (7 / 10) 8).2 (by norm_num)⟩

/-- Claim C9: for `0 < fc < fs/2` the RC smoothing-factor computation
succeeds with `alpha = 1 / (1 + fs / (2*pi*fc))`, and that value lies
strictly between 0 and 1. -/
theorem C9_rc_alpha_in_unit_interval (fc fs a0 : ℝ)
    (h1 : 0 < fc) (h2 : fc < fs / 2) :
    filter_rc_calculate_alpha fc fs a0 =
      (.ok, 1 / (1 + fs / (FILTER_TWOPI * fc))) ∧
    0 < 1 / (1 + fs / (FILTER_TWOPI * fc)) ∧
    1 / (1 + fs / (FILTER_TWOPI * fc)) < 1 := by
  have hpi := Real.pi_pos
  have hfs : 0 < fs := by nlinarith
  have hden : 0 < FILTER_TWOPI * fc := by
    unfold FILTER_TWOPI
    nlinarith
  have hx : 0 < fs / (FILTER_TWOPI * fc) := div_pos hfs hden
  refine ⟨?_, ?_, ?_⟩
  · simp [filter_rc_calculate_alpha, h2]
  · exact one_div_pos.mpr (by linarith)
  · rw [div_lt_one (by linarith)]
    linarith

/-- Witness for C9 at fc = 10, fs = 100 (the spec's own example point). -/
theorem C9_rc_alpha_witness :
    filter_rc_calculate_alpha 10 100 0 =
      (.ok, 1 / (1 + 100 / (FILTER_TWOPI * 10))) ∧
    0 < 1 / (1 + 100 / (FILTER_TWOPI * 10)) ∧
    1 / (1 + 100 / (FILTER_TWOPI * 10)) < 1 :=
  C9_rc_alpha_in_unit_interval 10 100 0 (by norm_num) (by norm_num)

/-- Claim C10: on an initialised RC instance the handle call leaves alpha,
fc, fs, order and the init flag exactly as they were; the only instance
field it changes is the stage-output array `p_y`, which becomes the cascade
update. -/
theorem C10_rc_hndl_frame (inst : filter_rc_t) (x o : ℝ)
    (h : inst.is_init = true) :
    ((filter_rc_hndl (some inst) x (some o)).2.1).map filter_rc_t.alpha =
      some inst.alpha ∧
    ((filter_rc_hndl (some inst) x (some o)).2.1).map filter_rc_t.fc =
      some inst.fc ∧
    ((filter_rc_hndl (some inst) x (some o)).2.1).map filter_rc_t.fs =
      some inst.fs ∧
    ((filter_rc_hndl (some inst) x (some o)).2.1).map filter_rc_t.order =
      some inst.order ∧
    ((filter_rc_hndl (some inst) x (some o)).2.1).map filter_rc_t.is_init =
      some inst.is_init ∧
    ((filter_rc_hndl (some inst) x (some o)).2.1).map filter_rc_t.p_y =
      some (rc_cascade inst.alpha x inst.p_y) := by
  simp [filter_rc_hndl, h]

/-- Witness for C10 at the concrete initialised instance `rcInst`. -/
theorem C10_rc_hndl_frame_witness :
    ((filter_rc_hndl (some rcInst) 2 (some 7)).2.1).map filter_rc_t.alpha =
      some rcInst.alpha ∧
    ((filter_rc_hndl (some rcInst) 2 (some 7)).2.1).map filter_rc_t.fc =
      some rcInst.fc ∧
    ((filter_rc_hndl (some rcInst) 2 (some 7)).2.1).map filter_rc_t.fs =
      some rcInst.fs ∧
    ((filter_rc_hndl (some rcInst) 2 (some 7)).2.1).map filter_rc_t.order =
      some rcInst.order ∧
    ((filter_rc_hndl (some rcInst) 2 (some 7)).2.1).map filter_rc_t.is_init =
      some rcInst.is_init ∧
    ((filter_rc_hndl (some rcInst) 2 (some 7)).2.1).map filter_rc_t.p_y =
      some (rc_cascade rcInst.alpha 2 rcInst.p_y) :=
  C10_rc_hndl_frame rcInst 2 7 rfl

/-- Helper: dividing every element of a list by a constant divides its sum. -/
theorem list_sum_map_div (l : List ℝ) (g : ℝ) :
    (l.map (fun z => z / g)).sum = l.sum / g := by
  induction l with
  | nil => simp
  | cons a t ih => simp [ih, add_div]

/-- Helper: inversion of `filter_iir_calc_lpf_gain` on its defined branch:
a non-NAN gain means both guards passed and the gain is the quotient. -/
theorem lpf_gain_some_inv (c : filter_iir_coeff_t) (g : ℝ)
    (h : filter_iir_calc_lpf_gain c = some g) :
    pole0 c ≠ 0 ∧
    pole_rest_sum c / pole0 c + 1 ≠ 0 ∧
    g = c.p_zero.sum / (pole_rest_sum c / pole0 c + 1) / pole0 c := by
  simp only [filter_iir_calc_lpf_gain] at h
  split_ifs at h with h1 h2
  exact ⟨h1, h2, (Option.some_inj.mp h).symm⟩

/-- Claim C7: the DC gain analyzer returns
`(Σ zero[i] / pole_sum) / pole[0]` with
`pole_sum = (Σ_{i ≥ 1} pole[i]) / pole[0] + 1`, and returns the NAN sentinel
exactly when `pole[0] = 0` or that `pole_sum = 0`. -/
theorem C7_lpf_gain_formula (c : filter_iir_coeff_t) :
    (filter_iir_calc_lpf_gain c = none ↔
      pole0 c = 0 ∨ pole_rest_sum c / pole0 c + 1 = 0) ∧
    (pole0 c ≠ 0 →
      pole_rest_sum c / pole0 c + 1 ≠ 0 →
      filter_iir_calc_lpf_gain c =
        some (c.p_zero.sum / (pole_rest_sum c / pole0 c + 1) / pole0 c)) := by
  constructor
  · simp only [filter_iir_calc_lpf_gain]
    split_ifs with h1 h2 <;> simp_all [ofloat]
  · intro h1 h2
    simp [filter_iir_calc_lpf_gain, h1, h2]

/-- Witness for C7 at `gainCoeff` (`pole = [2, 1]`, `zero = [3]`): the gain
is `3 / (1/2 + 1) / 2 = 1`, not NAN. -/
theorem C7_lpf_gain_witness :
    filter_iir_calc_lpf_gain gainCoeff = some 1 := by
  have h := (C7_lpf_gain_formula gainCoeff).2
    (by norm_num [pole0, gainCoeff]) (by norm_num [pole0, pole_rest_sum, gainCoeff])
  norm_num [pole0, pole_rest_sum, gainCoeff] at h
  exact h

/-- Claim C8: the unity-gain normaliser computes the DC gain, and when it is
strictly positive divides every zero coefficient by it, leaving the poles
untouched (the result record changes only `p_zero`), after which the DC gain
of the normalised coefficients is exactly 1; when the gain is NAN or not
positive it changes nothing and still reports `eFILTER_OK`. -/
theorem C8_unity_gain_normalisation (c : filter_iir_coeff_t) :
    (∀ g : ℝ, filter_iir_calc_lpf_gain c = some g → 0 < g →
      filter_iir_coeff_to_unity_gain_lpf c =
        (.ok, { c with p_zero := c.p_zero.map (fun z => z / g) }) ∧
      filter_iir_calc_lpf_gain ((filter_iir_coeff_to_unity_gain_lpf c).2) =
        some 1) ∧
    ((∀ g : ℝ, filter_iir_calc_lpf_gain c = some g → g ≤ 0) →
      filter_iir_coeff_to_unity_gain_lpf c = (.ok, c)) := by
  constructor
  · intro g hg hpos
    obtain ⟨h1, h2, hgeq⟩ := lpf_gain_some_inv c g hg
    have hop : filter_iir_coeff_to_unity_gain_lpf c =
        (.ok, { c with p_zero := c.p_zero.map (fun z => z / g) }) := by
      simp [filter_iir_coeff_to_unity_gain_lpf, hg, hpos]
    refine ⟨hop, ?_⟩
    rw [hop]
    have hgne : g ≠ 0 := ne_of_gt hpos
    have hzs : c.p_zero.sum ≠ 0 := by
      intro h0
      rw [hgeq, h0] at hgne
      simp at hgne
    have ha0 : pole0 { c with p_zero := c.p_zero.map (fun z => z / g) } =
        pole0 c := rfl
    have hps : pole_rest_sum { c with p_zero := c.p_zero.map (fun z => z / g) } =
        pole_rest_sum c := rfl
    have hda : (pole_rest_sum c / pole0 c + 1) * pole0 c ≠ 0 := mul_ne_zero h2 h1
    have key : c.p_zero.sum / g / (pole_rest_sum c / pole0 c + 1) / pole0 c
        = 1 := by
      rw [div_div, div_div, hgeq, div_div, div_mul_cancel₀ _ hda, div_self hzs]
    simp only [filter_iir_calc_lpf_gain, ha0, hps, if_neg h1, if_neg h2]
    rw [list_sum_map_div, key]
  · intro hnp
    unfold filter_iir_coeff_to_unity_gain_lpf
    cases hgc : filter_iir_calc_lpf_gain c with
    | none => rfl
    | some g =>
        have := hnp g hgc
        simp [not_lt.mpr this]

/-- Witness for C8 at `unityCoeff` (`pole = [1]`, `zero = [2]`, gain 2):
normalisation halves the zero and makes the gain 1. -/
theorem C8_unity_gain_witness :
    filter_iir_coeff_to_unity_gain_lpf unityCoeff = (.ok, ⟨[1], [1]⟩) ∧
    filter_iir_calc_lpf_gain
      ((filter_iir_coeff_to_unity_gain_lpf unityCoeff).2) = some 1 := by
  have h := (C8_unity_gain_normalisation unityCoeff).1 2
    (by norm_num [filter_iir_calc_lpf_gain, pole0, pole_rest_sum, unityCoeff])
    (by norm_num)
  refine ⟨?_, h.2⟩
  rw [h.1]
  norm_num [unityCoeff]

end Filter
